import Mathlib

/-!
Verification of the lead calling queue and outcome state machine of the
sale_app repository. Definitions are a shallow embedding of the TypeScript
source in `src/components/calls/CallLogModal.tsx` (the `CallLogModal` and
`CallingInterface` components) and the callable-lead count in
`src/components/dashboard/CallCenterDashboard.tsx`. Timestamps are modelled
as integer milliseconds since the epoch with the local timezone taken as
UTC, so local-midnight truncation is truncation modulo one day.
-/

/-- Lead lifecycle statuses, from the `Lead` status union in the types. -/
inductive LeadStatus where
  | new
  | contacted
  | interested
  | meeting_scheduled
  | meeting_completed
  | converted
  | closed
deriving DecidableEq, Repr

/-- Call result values, from the `CallOutcome` result union. -/
inductive CallResult where
  | interested
  | not_interested
  | meeting_setup
  | call_later
  | switched_off
  | no_answer
  | wrong_number
deriving DecidableEq, Repr

/-- A call outcome: `picked` flag, result, optional next-action text and date
(`CallOutcome` in the source types). -/
structure CallOutcome where
  picked : Bool
  result : CallResult
  nextAction : Option String
  nextActionDate : Option Int
deriving DecidableEq, Repr

/-- A communication record appended to a lead
(the `communication` object built in `handleCallLog`). -/
structure Communication where
  id : String
  type : String
  direction : String
  outcome : Option CallOutcome
  duration : Option Int
  content : Option String
  createdBy : String
  createdAt : Int
deriving DecidableEq, Repr

/-- A lead document, with the fields the calling code reads and writes. -/
structure Lead where
  id : String
  organizationId : String
  name : Option String
  companyName : Option String
  phone : Option String
  managerPhone : Option String
  companyPhone : Option String
  address : Option String
  status : LeadStatus
  assignedTo : Option String
  communications : List Communication
  currentlyCallingBy : Option String
  currentlyCallingAt : Option Int
  createdAt : Int
  updatedAt : Int
deriving DecidableEq, Repr

/-- A meeting document as created by `handleCallLog`'s `addDoc` call. -/
structure Meeting where
  leadId : String
  organizationId : String
  scheduledBy : String
  assignedTo : String
  scheduledAt : Int
  status : String
  location : String
  notes : String
  createdAt : Int
deriving DecidableEq, Repr

/-- One day in milliseconds. -/
def dayMs : Int := 86400000

/-- Thirty minutes in milliseconds (`const thirtyMinutes = 30 * 60 * 1000`). -/
def thirtyMinutes : Int := 30 * 60 * 1000

/-- `d.setHours(0, 0, 0, 0)`: truncate a timestamp to local midnight. -/
def midnightOf (t : Int) : Int := t - t % dayMs

/-- `Math.floor((now - t) / day)` as used for `daysSinceLastComm`. -/
def daysBetween (t now : Int) : Int := Int.fdiv (now - t) dayMs

/-- The "tomorrow at 9 AM" date computed by `getNextActionDate` for
`switched_off` / `no_answer` outcomes. -/
def nextDayAt9 (now : Int) : Int := midnightOf now + dayMs + 9 * 60 * 60 * 1000

/-- JavaScript truthiness of an optional string field
(absent or empty string is falsy). -/
def strTruthy : Option String → Bool
  | none => false
  | some s => s ≠ ""

/-- `a || dflt` on an optional string, with the empty string falsy. -/
def orElseStr (o : Option String) (dflt : String) : String :=
  match o with
  | some s => if s = "" then dflt else s
  | none => dflt

/-- `lead.communications?.[lead.communications.length - 1]`. -/
def lastComm (l : Lead) : Option Communication := l.communications.getLast?

/-- The status check at the top of `fetchCallableLeads`: converted, closed,
meeting_scheduled and meeting_completed leads are excluded. -/
def statusExcluded : LeadStatus → Bool
  | .converted => true
  | .closed => true
  | .meeting_scheduled => true
  | .meeting_completed => true
  | _ => false

/-- The soft-lock check in `fetchCallableLeads`: a lead is excluded when
`currentlyCallingBy` is truthy, differs from the requesting user, and
`currentlyCallingAt` is within the last thirty minutes. -/
def lockExcludes (agentId : String) (now : Int) (l : Lead) : Bool :=
  match l.currentlyCallingBy with
  | none => false
  | some s =>
    if s ≠ "" ∧ s ≠ agentId then
      match l.currentlyCallingAt with
      | some t => decide (now - t < thirtyMinutes)
      | none => false
    else false

/-- The last-communication rules of `fetchCallableLeads`, applied to the last
communication's outcome: short-term cooldown after an unanswered call,
permanent exclusion after not_interested / wrong_number, follow-up-date
gating, and the one-day wait after call_later. -/
def commEligibleOutcome (now daysSince : Int) (o : CallOutcome) : Bool :=
  if o.picked = false ∧
      (o.result = CallResult.switched_off ∨ o.result = CallResult.no_answer) ∧
      daysSince < 1 then false
  else if o.result = CallResult.not_interested ∨ o.result = CallResult.wrong_number then false
  else
    match o.nextActionDate with
    | some nad => decide (midnightOf nad ≤ midnightOf now)
    | none => if o.result = CallResult.call_later then decide (1 ≤ daysSince) else true

/-- The communication part of `fetchCallableLeads`'s filter: a lead with no
last communication, or one without an outcome, falls through to eligible. -/
def commEligible (now : Int) (l : Lead) : Bool :=
  match lastComm l with
  | none => true
  | some c =>
    match c.outcome with
    | none => true
    | some o => commEligibleOutcome now (daysBetween c.createdAt now) o

/-- The full eligibility filter of `fetchCallableLeads` in the calling
interface: status check, then soft-lock check, then communication rules. -/
def isEligible (agentId : String) (now : Int) (l : Lead) : Bool :=
  if statusExcluded l.status then false
  else if lockExcludes agentId now l then false
  else commEligible now l

/-- The status check of the `CallCenterDashboard.fetchLeads` callable count:
it excludes only converted, meeting_scheduled and meeting_completed. -/
def dashStatusExcluded : LeadStatus → Bool
  | .converted => true
  | .meeting_scheduled => true
  | .meeting_completed => true
  | _ => false

/-- The callable-lead filter of `CallCenterDashboard.fetchLeads`: status
check, unanswered-call cooldown, and follow-up-date gating only. -/
def isCallableDashboard (now : Int) (l : Lead) : Bool :=
  if dashStatusExcluded l.status then false
  else
    match lastComm l with
    | none => true
    | some c =>
      match c.outcome with
      | none => true
      | some o =>
        if o.picked = false ∧
            (o.result = CallResult.switched_off ∨ o.result = CallResult.no_answer) ∧
            daysBetween c.createdAt now < 1 then false
        else
          match o.nextActionDate with
          | some nad => decide (midnightOf nad ≤ midnightOf now)
          | none => true

/-- Follow-up flag used by the priority comparator: 1 when the last
communication's outcome carries a `nextActionDate`. -/
def followUpFlag (l : Lead) : Int :=
  match ((lastComm l).bind Communication.outcome).bind CallOutcome.nextActionDate with
  | some _ => 1
  | none => 0

/-- New-lead flag used by the priority comparator. -/
def newFlag (l : Lead) : Int :=
  match l.status with
  | .new => 1
  | _ => 0

/-- The priority comparator passed to `callableLeads.sort`: follow-ups first,
then new leads, then creation time descending. A negative value puts `a`
before `b`. -/
def cmpLeads (a b : Lead) : Int :=
  if followUpFlag a ≠ followUpFlag b then followUpFlag b - followUpFlag a
  else if newFlag a ≠ newFlag b then newFlag b - newFlag a
  else b.createdAt - a.createdAt

/-- Stable insertion for the comparator-based sort: `x` is placed before the
first element that does not compare strictly below it. -/
def insertByCmp {α : Type} (cmp : α → α → Int) (x : α) : List α → List α
  | [] => [x]
  | y :: ys => if cmp y x < 0 then y :: insertByCmp cmp x ys else x :: y :: ys

/-- Stable comparator sort modelling JavaScript `Array.prototype.sort`
(guaranteed stable), via insertion from the right. -/
def sortByCmp {α : Type} (cmp : α → α → Int) (xs : List α) : List α :=
  xs.foldr (insertByCmp cmp) []

/-- `fetchCallableLeads`: filter the organization's leads by eligibility and
sort them by the priority comparator. -/
def fetchCallableLeads (agentId : String) (now : Int) (pool : List Lead) : List Lead :=
  sortByCmp cmpLeads (pool.filter (isEligible agentId now))

/-- The call data passed from `CallLogModal.onSave` to `handleCallLog`. -/
structure CallData where
  outcome : CallOutcome
  duration : Option Int
  notes : Option String
  meetingDate : Option Int
  assignedTo : Option String
  callbackDate : Option Int
deriving DecidableEq, Repr

/-- The modal's form fields at save time. Empty text inputs are `none`
(for the date fields) or the empty string (for `assignedTo` and `notes`). -/
structure FormState where
  picked : Option Bool
  result : Option CallResult
  duration : Int
  notes : String
  callbackDate : Option Int
  meetingDate : Option Int
  assignedTo : String
deriving DecidableEq, Repr

/-- `getNextActionText` in `CallLogModal.handleSave`. -/
def getNextActionText : CallResult → Option String
  | .interested => some "Follow up call - lead showed interest"
  | .call_later => some "Callback as requested by lead"
  | .meeting_setup => some "Meeting scheduled"
  | .switched_off => some "Retry call - phone was switched off"
  | .no_answer => some "Retry call - no answer"
  | _ => none

/-- `getNextActionDate` in `CallLogModal.handleSave`: callback date for
interested / call_later, meeting date for meeting_setup, and the next day
at 9 AM for switched_off / no_answer. -/
def getNextActionDate (now : Int) (f : FormState) (r : CallResult) : Option Int :=
  match r with
  | .interested => f.callbackDate
  | .call_later => f.callbackDate
  | .meeting_setup => f.meetingDate
  | .switched_off => some (nextDayAt9 now)
  | .no_answer => some (nextDayAt9 now)
  | _ => none

/-- `CallLogModal.handleSave`: reject when no call status or result is chosen,
when meeting_setup lacks a meeting date or an assignee, or when
interested / call_later lacks a callback date; otherwise build the call
data handed to `onSave`. -/
def handleSave (now : Int) (f : FormState) : Option CallData :=
  match f.picked, f.result with
  | some p, some r =>
    if r = CallResult.meeting_setup ∧ (f.meetingDate = none ∨ f.assignedTo = "") then none
    else if (r = CallResult.interested ∨ r = CallResult.call_later) ∧ f.callbackDate = none then
      none
    else
      some
        { outcome :=
            { picked := p, result := r, nextAction := getNextActionText r,
              nextActionDate := getNextActionDate now f r },
          duration := if f.duration > 0 then some f.duration else none,
          notes := if f.notes = "" then none else some f.notes,
          meetingDate := f.meetingDate,
          assignedTo := if f.assignedTo = "" then none else some f.assignedTo,
          callbackDate := f.callbackDate }
  | _, _ => none

/-- The new lead status computed in `handleCallLog` from the call outcome.
The initial value `cur` (the lead's current status) is overwritten on every
branch of the source's switch. -/
def newStatusFor (cur : LeadStatus) (o : CallOutcome) : LeadStatus :=
  if o.picked then
    match o.result with
    | .interested => .interested
    | .meeting_setup => .meeting_scheduled
    | .not_interested => .closed
    | _ => .contacted
  else if o.result = CallResult.wrong_number then .closed
  else .contacted

/-- The new `assignedTo` computed in `handleCallLog`: the acting agent for
answered calls other than not_interested, otherwise unchanged. -/
def newAssignedFor (cur : Option String) (agentId : String) (o : CallOutcome) : Option String :=
  if o.picked then
    if o.result = CallResult.not_interested then cur else some agentId
  else cur

/-- The communication record built in `handleCallLog` (with the source's
`|| null` coercions on nextAction and duration). -/
def mkComm (agentId : String) (now : Int) (l : Lead) (cd : CallData) : Communication :=
  { id := l.id ++ "_" ++ toString now,
    type := "call",
    direction := "outbound",
    outcome := some
      { picked := cd.outcome.picked, result := cd.outcome.result,
        nextAction :=
          match cd.outcome.nextAction with
          | some s => if s = "" then none else some s
          | none => none,
        nextActionDate := cd.outcome.nextActionDate },
    duration :=
      match cd.duration with
      | some d => if d = 0 then none else some d
      | none => none,
    content := cd.notes,
    createdBy := agentId,
    createdAt := now }

/-- The condition guarding meeting creation in `handleCallLog`:
`result === 'meeting_setup' && callData.meetingDate && callData.assignedTo`. -/
def wantsMeeting (cd : CallData) : Bool :=
  decide (cd.outcome.result = CallResult.meeting_setup) && cd.meetingDate.isSome &&
    strTruthy cd.assignedTo

/-- The meetings created by `handleCallLog`'s `addDoc`: one meeting when the
outcome is meeting_setup with a meeting date and an assignee, none otherwise. -/
def meetingsFor (agentId orgId : String) (now : Int) (l : Lead) (cd : CallData) : List Meeting :=
  if wantsMeeting cd then
    [{ leadId := l.id,
       organizationId := orgId,
       scheduledBy := agentId,
       assignedTo := cd.assignedTo.getD "",
       scheduledAt := cd.meetingDate.getD 0,
       status := "scheduled",
       location := orElseStr l.address "To be determined",
       notes := "Meeting scheduled via call center. Company: " ++
         orElseStr l.companyName (orElseStr l.name "Unknown") ++ ", Phone: " ++
         orElseStr l.managerPhone (orElseStr l.companyPhone (orElseStr l.phone "N/A")),
       createdAt := now }]
  else []

/-- The `updateDoc` on the lead in `handleCallLog`: append the communication,
set the new status, clear both calling-lock fields, stamp `updatedAt`, and
write `assignedTo` only when it has a value. -/
def submitWrite (agentId : String) (now : Int) (snapshot : Lead) (cd : CallData)
    (stored : Lead) : Lead :=
  { stored with
    communications := snapshot.communications ++ [mkComm agentId now snapshot cd],
    status := newStatusFor snapshot.status cd.outcome,
    assignedTo :=
      match newAssignedFor snapshot.assignedTo agentId cd.outcome with
      | some a => some a
      | none => stored.assignedTo,
    currentlyCallingBy := none,
    currentlyCallingAt := none,
    updatedAt := now }

/-- The effect of `handleCallLog` on a single lead when every persistence call
succeeds: the updated lead together with the meetings created for it. -/
def applyOutcome (agentId orgId : String) (now : Int) (l : Lead) (cd : CallData) :
    Lead × List Meeting :=
  (submitWrite agentId now l cd l, meetingsFor agentId orgId now l cd)

/-- The claim write of the soft lock (`startCalling` and the advance-to-next
writes): set both calling fields together. -/
def claimLockL (agentId : String) (now : Int) (l : Lead) : Lead :=
  { l with currentlyCallingBy := some agentId, currentlyCallingAt := some now }

/-- The release write of the soft lock (`stopCalling`, `skipLead`, and the
`handleCallLog` update): clear both calling fields together. -/
def releaseLockL (l : Lead) : Lead :=
  { l with currentlyCallingBy := none, currentlyCallingAt := none }

/-- The lock-field invariant of the data model: `lockedBy` and `lockedAt`
(source names `currentlyCallingBy` / `currentlyCallingAt`) are both null or
both set. -/
def lockInv (l : Lead) : Prop :=
  l.currentlyCallingBy = none ↔ l.currentlyCallingAt = none

instance (l : Lead) : Decidable (lockInv l) := by
  unfold lockInv
  infer_instance

/-- Update the lead with the given id in the store, leaving others alone
(the effect of `updateDoc(doc(db, 'leads', id), ...)`). -/
def updateLeadIn (pool : List Lead) (i : String) (f : Lead → Lead) : List Lead :=
  pool.map (fun l => if l.id = i then f l else l)

/-- A calling session: the lead store, the fetched queue snapshot, the cursor
(`currentLeadIndex`), and the meetings persisted so far. -/
structure SessionState where
  pool : List Lead
  queue : List Lead
  cursor : Nat
  meetings : List Meeting
deriving DecidableEq, Repr

/-- `startCalling`: claim the first lead of the queue, if any. -/
def startCalling (agentId : String) (now : Int) (s : SessionState) : SessionState :=
  match s.queue.head? with
  | none => s
  | some first => { s with pool := updateLeadIn s.pool first.id (claimLockL agentId now) }

/-- `stopCalling`: release the current lead's claim, if any. -/
def stopCalling (s : SessionState) : SessionState :=
  match s.queue.get? s.cursor with
  | none => s
  | some cur => { s with pool := updateLeadIn s.pool cur.id releaseLockL }

/-- `skipLead`: release the current lead's claim without logging anything,
then advance the cursor, claiming the next lead; when the cursor passes the
end of the queue it is reset to 0 with no refetch of the queue. -/
def skipLead (agentId : String) (now : Int) (s : SessionState) : SessionState :=
  let pool1 :=
    match s.queue.get? s.cursor with
    | some cur => updateLeadIn s.pool cur.id releaseLockL
    | none => s.pool
  if s.cursor + 1 < s.queue.length then
    let pool2 :=
      match s.queue.get? (s.cursor + 1) with
      | some nxt => updateLeadIn pool1 nxt.id (claimLockL agentId now)
      | none => pool1
    { pool := pool2, queue := s.queue, cursor := s.cursor + 1, meetings := s.meetings }
  else
    { pool := pool1, queue := s.queue, cursor := 0, meetings := s.meetings }

/-- The success path of `handleCallLog` at session level: persist the meeting
(if any) and the lead update, then advance the cursor, claiming the next
lead; on exhaustion, re-run `fetchCallableLeads` and reset the cursor to 0. -/
def sessionSubmit (agentId orgId : String) (now : Int) (cd : CallData)
    (s : SessionState) : SessionState :=
  match s.queue.get? s.cursor with
  | none => s
  | some cur =>
    let pool1 := updateLeadIn s.pool cur.id (submitWrite agentId now cur cd)
    let ms := s.meetings ++ meetingsFor agentId orgId now cur cd
    if s.cursor + 1 < s.queue.length then
      let pool2 :=
        match s.queue.get? (s.cursor + 1) with
        | some nxt => updateLeadIn pool1 nxt.id (claimLockL agentId now)
        | none => pool1
      { pool := pool2, queue := s.queue, cursor := s.cursor + 1, meetings := ms }
    else
      { pool := pool1, queue := fetchCallableLeads agentId now pool1, cursor := 0,
        meetings := ms }

/-- Outcome submission from the modal: `handleSave` validates the form and,
only on success, hands the call data to `handleCallLog`. -/
def submitOutcome (agentId orgId : String) (now : Int) (f : FormState)
    (s : SessionState) : SessionState :=
  match handleSave now f with
  | none => s
  | some cd => sessionSubmit agentId orgId now cd s

/-- Result of one `handleCallLog` run on a lead under possible persistence
failures: the lead state and the meetings actually persisted at the end. -/
inductive PersistResult where
  | ok (lead : Lead) (meetings : List Meeting)
  | failed (lead : Lead) (meetings : List Meeting)
deriving DecidableEq, Repr

/-- The lead state at the end of a run. -/
def PersistResult.lead : PersistResult → Lead
  | .ok l _ => l
  | .failed l _ => l

/-- The meetings persisted by the end of a run. -/
def PersistResult.meetings : PersistResult → List Meeting
  | .ok _ m => m
  | .failed _ m => m

/-- `handleCallLog` with explicit persistence outcomes, following the
source's order: the meeting `addDoc` runs before the lead `updateDoc`, and
the surrounding try/catch aborts the rest of the operation on a failure. -/
def handleCallLogRun (agentId orgId : String) (now : Int) (l : Lead) (cd : CallData)
    (meetingCreateOk leadUpdateOk : Bool) : PersistResult :=
  if wantsMeeting cd ∧ meetingCreateOk = false then .failed l []
  else
    let ms := meetingsFor agentId orgId now l cd
    if leadUpdateOk then .ok (submitWrite agentId now l cd l) ms
    else .failed l ms

/-- An element of a stable insertion is the inserted element or an element of
the original list. -/
theorem mem_of_mem_insertByCmp {α : Type} {cmp : α → α → Int} {x y : α} {xs : List α}
    (h : x ∈ insertByCmp cmp y xs) : x = y ∨ x ∈ xs := by
  induction xs with
  | nil => simpa [insertByCmp] using h
  | cons z zs ih =>
    unfold insertByCmp at h
    by_cases hc : cmp z y < 0
    · rw [if_pos hc] at h
      rcases List.mem_cons.mp h with h | h
      · exact Or.inr (h ▸ List.mem_cons_self z zs)
      · rcases ih h with h | h
        · exact Or.inl h
        · exact Or.inr (List.mem_cons_of_mem z h)
    · rw [if_neg hc] at h
      rcases List.mem_cons.mp h with h | h
      · exact Or.inl h
      · exact Or.inr h

/-- The comparator sort never invents elements. -/
theorem mem_of_mem_sortByCmp {α : Type} {cmp : α → α → Int} {x : α} {xs : List α}
    (h : x ∈ sortByCmp cmp xs) : x ∈ xs := by
  induction xs with
  | nil => simpa [sortByCmp] using h
  | cons z zs ih =>
    have h' : x ∈ insertByCmp cmp z (sortByCmp cmp zs) := h
    rcases mem_of_mem_insertByCmp h' with h'' | h''
    · exact h'' ▸ List.mem_cons_self z zs
    · exact List.mem_cons_of_mem z (ih h'')

/-- Every lead returned by `fetchCallableLeads` comes from the store unchanged
and passed the eligibility filter. -/
theorem eligible_of_mem_fetch {agentId : String} {now : Int} {pool : List Lead} {x : Lead}
    (h : x ∈ fetchCallableLeads agentId now pool) :
    x ∈ pool ∧ isEligible agentId now x = true := by
  unfold fetchCallableLeads at h
  exact List.mem_filter.mp (mem_of_mem_sortByCmp h)

/-- A per-lead store update preserves any projection the update function
preserves. -/
theorem map_updateLeadIn {β : Type} (pool : List Lead) (i : String) (f : Lead → Lead)
    (g : Lead → β) (hg : ∀ l, g (f l) = g l) :
    (updateLeadIn pool i f).map g = pool.map g := by
  induction pool with
  | nil => rfl
  | cons z zs ih =>
    unfold updateLeadIn at ih ⊢
    simp only [List.map_cons]
    by_cases h : z.id = i
    · rw [if_pos h, hg z, ih]
    · rw [if_neg h, ih]

/-- An element of an updated store is the image of a matching lead, or an
untouched lead whose id does not match. -/
theorem mem_updateLeadIn {pool : List Lead} {i : String} {f : Lead → Lead} {m : Lead}
    (h : m ∈ updateLeadIn pool i f) :
    (∃ l, l ∈ pool ∧ l.id = i ∧ m = f l) ∨ (m ∈ pool ∧ m.id ≠ i) := by
  unfold updateLeadIn at h
  rcases List.mem_map.mp h with ⟨l, hl, hm⟩
  by_cases hc : l.id = i
  · rw [if_pos hc] at hm
    exact Or.inl ⟨l, hl, hc, hm.symm⟩
  · rw [if_neg hc] at hm
    exact Or.inr ⟨hm ▸ hl, hm ▸ hc⟩

/-- A per-lead store update whose write satisfies the lock invariant keeps
the whole store satisfying it. -/
theorem lockInv_updateLeadIn {pool : List Lead} {i : String} {f : Lead → Lead}
    (hpool : ∀ l ∈ pool, lockInv l) (hf : ∀ l, lockInv (f l)) :
    ∀ m ∈ updateLeadIn pool i f, lockInv m := by
  intro m hm
  rcases mem_updateLeadIn hm with ⟨l, _, _, rfl⟩ | ⟨hm', _⟩
  · exact hf l
  · exact hpool m hm'

/-- Claiming writes both lock fields. -/
theorem lockInv_claimLockL (agentId : String) (now : Int) (l : Lead) :
    lockInv (claimLockL agentId now l) := by
  simp [lockInv, claimLockL]

/-- Releasing clears both lock fields. -/
theorem lockInv_releaseLockL (l : Lead) : lockInv (releaseLockL l) := by
  simp [lockInv, releaseLockL]

/-- The outcome write clears both lock fields. -/
theorem lockInv_submitWrite (agentId : String) (now : Int) (snapshot stored : Lead)
    (cd : CallData) : lockInv (submitWrite agentId now snapshot cd stored) := by
  simp [lockInv, submitWrite]

/-- A fixture lead: fresh, unlocked, with no communications. -/
def baseLead : Lead :=
  { id := "L0", organizationId := "org1", name := some "Alice",
    companyName := none, phone := some "0911", managerPhone := none,
    companyPhone := none, address := none, status := LeadStatus.new,
    assignedTo := none, communications := [],
    currentlyCallingBy := none, currentlyCallingAt := none,
    createdAt := 0, updatedAt := 0 }

/-- A closed lead with no communications. -/
def leadClosedPlain : Lead := { baseLead with id := "Lclosed", status := LeadStatus.closed }

/-- An interested lead already assigned to another agent. -/
def leadInterested : Lead :=
  { baseLead with id := "Lint", status := LeadStatus.interested, assignedTo := some "agent7" }

/-- Modal form state: call not picked, result no_answer. -/
def formNoAnswer : FormState :=
  { picked := some false, result := some CallResult.no_answer, duration := 0,
    notes := "", callbackDate := none, meetingDate := none, assignedTo := "" }

/-- The call data `handleSave` produces for `formNoAnswer` at time 0. -/
def cdNoAnswer : CallData :=
  { outcome :=
      { picked := false, result := CallResult.no_answer,
        nextAction := some "Retry call - no answer", nextActionDate := some (nextDayAt9 0) },
    duration := none, notes := none, meetingDate := none, assignedTo := none,
    callbackDate := none }

/-- Call data for a not_interested outcome. -/
def cdNotInterested : CallData :=
  { outcome :=
      { picked := true, result := CallResult.not_interested,
        nextAction := none, nextActionDate := none },
    duration := none, notes := none, meetingDate := none, assignedTo := none,
    callbackDate := none }

/-- Call data for a meeting_setup outcome with date and assignee present. -/
def cdMeeting : CallData :=
  { outcome :=
      { picked := true, result := CallResult.meeting_setup,
        nextAction := some "Meeting scheduled", nextActionDate := some 500000 },
    duration := some 3, notes := none, meetingDate := some 500000,
    assignedTo := some "agent2", callbackDate := none }

/-- Modal form state missing both meeting date and assignee for
meeting_setup. -/
def formBadMeeting : FormState :=
  { picked := some true, result := some CallResult.meeting_setup, duration := 0,
    notes := "", callbackDate := none, meetingDate := none, assignedTo := "" }

/-- A one-lead session over a one-lead store. -/
def sessionW : SessionState :=
  { pool := [baseLead], queue := [baseLead], cursor := 0, meetings := [] }




/-- C1 (amended): a lead whose status is converted, closed, meeting_scheduled
or meeting_completed is never eligible in the calling interface's
`fetchCallableLeads` filter and never appears in its callable queue; the
dashboard's callable-count filter excludes only converted, meeting_scheduled
and meeting_completed. -/
theorem claim1_terminal_status_excluded (agentId : String) (now : Int) (l : Lead)
    (h : l.status = LeadStatus.converted ∨ l.status = LeadStatus.closed ∨
      l.status = LeadStatus.meeting_scheduled ∨ l.status = LeadStatus.meeting_completed) :
    isEligible agentId now l = false ∧
    (∀ pool : List Lead, l ∉ fetchCallableLeads agentId now pool) ∧
    (l.status = LeadStatus.converted ∨ l.status = LeadStatus.meeting_scheduled ∨
        l.status = LeadStatus.meeting_completed →
      isCallableDashboard now l = false) := by
  have hstat : statusExcluded l.status = true := by
    rcases h with h | h | h | h <;> rw [h] <;> rfl
  have h1 : isEligible agentId now l = false := by
    simp [isEligible, hstat]
  refine ⟨h1, ?_, ?_⟩
  · intro pool hmem
    have h2 := (eligible_of_mem_fetch hmem).2
    rw [h1] at h2
    exact Bool.false_ne_true h2
  · intro h3
    have hd : dashStatusExcluded l.status = true := by
      rcases h3 with h3 | h3 | h3 <;> rw [h3] <;> rfl
    simp [isCallableDashboard, hd]

/-- C1 witness: a closed lead is ineligible and absent from the queue. -/
theorem claim1_witness :
    isEligible "agent1" 1000 leadClosedPlain = false ∧
    leadClosedPlain ∉ fetchCallableLeads "agent1" 1000 [leadClosedPlain] := by
  have h := claim1_terminal_status_excluded "agent1" 1000 leadClosedPlain (Or.inr (Or.inl rfl))
  exact ⟨h.1, h.2.1 [leadClosedPlain]⟩

/-- C1 counterexample: the dashboard's callable-lead filter does not exclude
status closed, so a closed lead counts as callable there, refuting the
claim for that code path. -/
theorem claim1_counterexample :
    leadClosedPlain.status = LeadStatus.closed ∧
    isCallableDashboard 1000 leadClosedPlain = true := by
  exact ⟨rfl, rfl⟩

/-- C4: a submission with result meeting_setup but a missing meeting date or
assignee, or with result interested / call_later but no callback date, is
rejected by `handleSave` before any mutation: the session state (lead store,
queue, cursor, persisted meetings) is unchanged. -/
theorem claim4_validation_rejects (agentId orgId : String) (now : Int) (f : FormState)
    (s : SessionState)
    (h : (f.result = some CallResult.meeting_setup ∧
        (f.meetingDate = none ∨ f.assignedTo = "")) ∨
      ((f.result = some CallResult.interested ∨ f.result = some CallResult.call_later) ∧
        f.callbackDate = none)) :
    submitOutcome agentId orgId now f s = s := by
  have hnone : handleSave now f = none := by
    cases hpk : f.picked with
    | none =>
      rcases h with ⟨hr, _⟩ | ⟨hr, _⟩ <;> simp [handleSave, hpk, hr]
    | some p =>
      rcases h with ⟨hr, hmiss⟩ | ⟨hr, hcb⟩
      · simp [handleSave, hpk, hr, hmiss]
      · rcases hr with hr | hr <;> simp [handleSave, hpk, hr, hcb]
  simp [submitOutcome, hnone]

/-- C4 witness: a meeting_setup submission with no date and no assignee
leaves a concrete session untouched. -/
theorem claim4_witness : submitOutcome "agent1" "org1" 0 formBadMeeting sessionW = sessionW :=
  claim4_validation_rejects "agent1" "org1" 0 formBadMeeting sessionW
    (Or.inl ⟨rfl, Or.inl rfl⟩)

/-- C5: logging picked = true, result = not_interested closes the lead, and
the resulting lead state is ineligible for every agent at every later time,
so it never appears in any fetched callable queue again. -/
theorem claim5_not_interested_permanent (agentId orgId : String) (now : Int) (l : Lead)
    (cd : CallData) (hp : cd.outcome.picked = true)
    (hr : cd.outcome.result = CallResult.not_interested) :
    ((applyOutcome agentId orgId now l cd).1).status = LeadStatus.closed ∧
    (∀ (agentId2 : String) (now2 : Int),
      isEligible agentId2 now2 (applyOutcome agentId orgId now l cd).1 = false) ∧
    (∀ (agentId2 : String) (now2 : Int) (pool : List Lead),
      (applyOutcome agentId orgId now l cd).1 ∉ fetchCallableLeads agentId2 now2 pool) := by
  have hst : ((applyOutcome agentId orgId now l cd).1).status = LeadStatus.closed := by
    simp [applyOutcome, submitWrite, newStatusFor, hp, hr]
  have hel : ∀ (agentId2 : String) (now2 : Int),
      isEligible agentId2 now2 (applyOutcome agentId orgId now l cd).1 = false := by
    intro agentId2 now2
    have hx : statusExcluded ((applyOutcome agentId orgId now l cd).1).status = true := by
      rw [hst]; rfl
    simp [isEligible, hx]
  refine ⟨hst, hel, ?_⟩
  intro agentId2 now2 pool hmem
  have h2 := (eligible_of_mem_fetch hmem).2
  rw [hel agentId2 now2] at h2
  exact Bool.false_ne_true h2

/-- C5 witness: a concrete not_interested log closes the base lead and keeps
it out of a concrete queue. -/
theorem claim5_witness :
    ((applyOutcome "agent1" "org1" 5 baseLead cdNotInterested).1).status = LeadStatus.closed ∧
    isEligible "agent2" 999999999 (applyOutcome "agent1" "org1" 5 baseLead cdNotInterested).1 =
      false ∧
    (applyOutcome "agent1" "org1" 5 baseLead cdNotInterested).1 ∉
      fetchCallableLeads "agent2" 999999999
        [(applyOutcome "agent1" "org1" 5 baseLead cdNotInterested).1] := by
  have h := claim5_not_interested_permanent "agent1" "org1" 5 baseLead cdNotInterested rfl rfl
  exact ⟨h.1, h.2.1 "agent2" 999999999, h.2.2 "agent2" 999999999 _⟩

/-- A lead freshly locked by a different agent. -/
def leadLockedFresh : Lead :=
  { baseLead with
      id := "Llock", currentlyCallingBy := some "agent9", currentlyCallingAt := some 0 }

/-- A lead locked by the requesting agent themselves. -/
def leadSelfLocked : Lead :=
  { baseLead with
      id := "Lself", currentlyCallingBy := some "agent1", currentlyCallingAt := some 0 }

/-- C7: a fresh lock held by a different agent makes the lead ineligible; a
lock held by the requester, or one at least thirty minutes old, has no effect
on eligibility (the lead filters exactly as if unlocked); and the filter never
modifies a lead, so stale locks are ignored but not cleared. -/
theorem claim7_soft_lock (agentId holder : String) (now t : Int) (l : Lead)
    (hb : l.currentlyCallingBy = some holder) (hne : holder ≠ "") (hdiff : holder ≠ agentId)
    (ht : l.currentlyCallingAt = some t) (hfresh : now - t < thirtyMinutes) :
    isEligible agentId now l = false ∧
    (∀ l2 : Lead,
      (l2.currentlyCallingBy = some agentId ∨
        (∀ u : Int, l2.currentlyCallingAt = some u → thirtyMinutes ≤ now - u)) →
      isEligible agentId now l2 = isEligible agentId now (releaseLockL l2)) ∧
    (∀ (pool : List Lead) (x : Lead), x ∈ fetchCallableLeads agentId now pool → x ∈ pool) := by
  refine ⟨?_, ?_, ?_⟩
  · have hlock : lockExcludes agentId now l = true := by
      simp [lockExcludes, hb, ht, hne, hdiff, hfresh]
    cases hse : statusExcluded l.status <;> simp [isEligible, hse, hlock]
  · intro l2 h2
    have hl2 : lockExcludes agentId now l2 = false := by
      rcases h2 with h2 | h2
      · simp [lockExcludes, h2]
      · cases hby : l2.currentlyCallingBy with
        | none => simp [lockExcludes, hby]
        | some s =>
          cases hat : l2.currentlyCallingAt with
          | none => simp [lockExcludes, hby, hat]
          | some u =>
            have := h2 u hat
            simp [lockExcludes, hby, hat]
            intro _ _
            omega
    have hrel : lockExcludes agentId now (releaseLockL l2) = false := by
      simp [lockExcludes, releaseLockL]
    unfold isEligible
    rw [hl2, hrel]
    rfl
  · intro pool x hmem
    exact (eligible_of_mem_fetch hmem).1

/-- C7 witness: a concrete fresh foreign lock hides the lead, a self lock is
ignored, and queue membership implies store membership. -/
theorem claim7_witness :
    isEligible "agent1" 1000 leadLockedFresh = false ∧
    isEligible "agent1" 1000 leadSelfLocked =
      isEligible "agent1" 1000 (releaseLockL leadSelfLocked) ∧
    (leadLockedFresh ∈ fetchCallableLeads "agent1" 1000 [baseLead] →
      leadLockedFresh ∈ [baseLead]) := by
  have h := claim7_soft_lock "agent1" "agent9" 1000 0 leadLockedFresh rfl
    (by decide) (by decide) rfl (by decide)
  exact ⟨h.1, h.2.1 leadSelfLocked (Or.inl rfl),
    fun hm => h.2.2 [baseLead] leadLockedFresh hm⟩

/-- C8: every lock operation writes both lock fields together — claim sets
holder and timestamp in one write, every release path (outcome submission,
skip, stop) clears both in one write — so claim followed by release leaves
both fields null, and every lead state any session operation writes satisfies
the both-null-or-both-set invariant. -/
theorem claim8_lock_fields_together (l : Lead) (agentId orgId a : String) (t now : Int)
    (cd : CallData) (s : SessionState) (hs : ∀ m ∈ s.pool, lockInv m) :
    ((releaseLockL (claimLockL a t l)).currentlyCallingBy = none ∧
      (releaseLockL (claimLockL a t l)).currentlyCallingAt = none) ∧
    lockInv (claimLockL a t l) ∧
    lockInv (releaseLockL l) ∧
    lockInv (submitWrite agentId now l cd l) ∧
    (∀ m ∈ (startCalling agentId now s).pool, lockInv m) ∧
    (∀ m ∈ (stopCalling s).pool, lockInv m) ∧
    (∀ m ∈ (skipLead agentId now s).pool, lockInv m) ∧
    (∀ m ∈ (sessionSubmit agentId orgId now cd s).pool, lockInv m) := by
  have hclaim : ∀ x : Lead, lockInv (claimLockL agentId now x) :=
    fun x => lockInv_claimLockL agentId now x
  have hrel : ∀ x : Lead, lockInv (releaseLockL x) := fun x => lockInv_releaseLockL x
  refine ⟨⟨rfl, rfl⟩, lockInv_claimLockL a t l, lockInv_releaseLockL l,
    lockInv_submitWrite agentId now l l cd, ?_, ?_, ?_, ?_⟩
  · unfold startCalling
    cases s.queue.head? with
    | none => exact hs
    | some first => exact lockInv_updateLeadIn hs hclaim
  · unfold stopCalling
    cases s.queue.get? s.cursor with
    | none => exact hs
    | some cur => exact lockInv_updateLeadIn hs hrel
  · unfold skipLead
    have hpool1 : ∀ m ∈ (match s.queue.get? s.cursor with
        | some cur => updateLeadIn s.pool cur.id releaseLockL
        | none => s.pool), lockInv m := by
      cases s.queue.get? s.cursor with
      | none => exact hs
      | some cur => exact lockInv_updateLeadIn hs hrel
    by_cases hlt : s.cursor + 1 < s.queue.length
    · rw [if_pos hlt]
      cases s.queue.get? (s.cursor + 1) with
      | none => exact hpool1
      | some nxt => exact lockInv_updateLeadIn hpool1 hclaim
    · rw [if_neg hlt]
      exact hpool1
  · unfold sessionSubmit
    cases s.queue.get? s.cursor with
    | none => exact hs
    | some cur =>
      have hpool1 : ∀ m ∈ updateLeadIn s.pool cur.id (submitWrite agentId now cur cd),
          lockInv m :=
        lockInv_updateLeadIn hs (fun x => lockInv_submitWrite agentId now cur x cd)
      dsimp only
      by_cases hlt : s.cursor + 1 < s.queue.length
      · rw [if_pos hlt]
        cases s.queue.get? (s.cursor + 1) with
        | none => exact hpool1
        | some nxt => exact lockInv_updateLeadIn hpool1 hclaim
      · rw [if_neg hlt]
        exact hpool1

/-- C8 witness: concrete claim-then-release leaves both fields null and the
concrete lock writes satisfy the invariant. -/
theorem claim8_witness :
    (releaseLockL (claimLockL "agent1" 50 baseLead)).currentlyCallingBy = none ∧
    (releaseLockL (claimLockL "agent1" 50 baseLead)).currentlyCallingAt = none ∧
    lockInv (claimLockL "agent1" 50 baseLead) ∧
    lockInv (releaseLockL baseLead) ∧
    lockInv (submitWrite "agent1" 60 baseLead cdNotInterested baseLead) := by
  have h := claim8_lock_fields_together baseLead "agent1" "org1" "agent1" 50 60 cdNotInterested
    sessionW (by decide)
  exact ⟨h.1.1, h.1.2, h.2.1, h.2.2.1, h.2.2.2.1⟩

/-- A communication whose outcome carries a follow-up date. -/
def commWithFollowUp : Communication :=
  { id := "c1", type := "call", direction := "outbound",
    outcome := some
      { picked := true, result := CallResult.interested,
        nextAction := some "Follow up call - lead showed interest",
        nextActionDate := some 86400000 },
    duration := none, content := none, createdBy := "agent1", createdAt := 1000 }

/-- A communication with no recorded outcome. -/
def commNoFollowUp : Communication :=
  { id := "c2", type := "call", direction := "outbound", outcome := none,
    duration := none, content := none, createdBy := "agent1", createdAt := 2000 }

/-- Lead A of the spec's sorting example: has a follow-up, created day 1. -/
def leadA : Lead :=
  { baseLead with
      id := "A", status := LeadStatus.contacted,
      communications := [commWithFollowUp], createdAt := 86400000 }

/-- Lead B of the spec's sorting example: status new, created day 2. -/
def leadB : Lead :=
  { baseLead with id := "B", status := LeadStatus.new, createdAt := 172800000 }

/-- Lead C of the spec's sorting example: contacted, no follow-up, day 3. -/
def leadC : Lead :=
  { baseLead with
      id := "C", status := LeadStatus.contacted,
      communications := [commNoFollowUp], createdAt := 259200000 }

/-- A lead with id "b" whose sort keys tie with `leadTieA`. -/
def leadTieB : Lead :=
  { baseLead with id := "b", status := LeadStatus.contacted, createdAt := 500 }

/-- A lead with id "a" whose sort keys tie with `leadTieB`. -/
def leadTieA : Lead :=
  { baseLead with id := "a", status := LeadStatus.contacted, createdAt := 500 }

/-- C6 (amended): the priority sort is the deterministic stable sort by the
comparator — follow-ups first, then new leads, then createdAt descending —
whose value never depends on the lead identifier, so remaining ties keep
their input order instead of being broken by identifier; the spec's A, B, C
example sorts as [A, B, C], and tied leads keep input order. -/
theorem claim6_priority_sort (l m : Lead) (i : String) :
    cmpLeads { l with id := i } m = cmpLeads l m ∧
    cmpLeads m { l with id := i } = cmpLeads m l ∧
    sortByCmp cmpLeads [leadA, leadB, leadC] = [leadA, leadB, leadC] ∧
    sortByCmp cmpLeads [leadTieB, leadTieA] = [leadTieB, leadTieA] := by
  exact ⟨rfl, rfl, by decide, by decide⟩

/-- C6 counterexample: two eligible leads with identical sort keys and
identifiers "b" and "a" come out of the sort in input order [b, a], not in
identifier order [a, b], so ties are not broken by lead identifier. -/
theorem claim6_counterexample :
    cmpLeads leadTieB leadTieA = 0 ∧
    leadTieB.id = "b" ∧ leadTieA.id = "a" ∧
    sortByCmp cmpLeads [leadTieB, leadTieA] = [leadTieB, leadTieA] ∧
    sortByCmp cmpLeads [leadTieB, leadTieA] ≠ [leadTieA, leadTieB] := by
  refine ⟨by decide, rfl, rfl, by decide, by decide⟩

/-- C9 (amended): skip appends no communication and changes no lead status
(only lock fields change), leaves the persisted meetings and the queue
snapshot untouched, advances the cursor — resetting it to 0 on exhaustion
WITHOUT re-running the eligibility filter and sort — and on the exhaustion
path the current lead's claim is released. -/
theorem claim9_skip_behavior (agentId : String) (now : Int) (s : SessionState) :
    (skipLead agentId now s).pool.map Lead.status = s.pool.map Lead.status ∧
    (skipLead agentId now s).pool.map Lead.communications = s.pool.map Lead.communications ∧
    (skipLead agentId now s).meetings = s.meetings ∧
    (skipLead agentId now s).queue = s.queue ∧
    (skipLead agentId now s).cursor =
      (if s.cursor + 1 < s.queue.length then s.cursor + 1 else 0) ∧
    (∀ cur : Lead, s.queue.get? s.cursor = some cur → ¬ s.cursor + 1 < s.queue.length →
      ∀ l' ∈ (skipLead agentId now s).pool, l'.id = cur.id →
        l'.currentlyCallingBy = none ∧ l'.currentlyCallingAt = none) := by
  have hrelS : ∀ x : Lead, (releaseLockL x).status = x.status := fun _ => rfl
  have hrelC : ∀ x : Lead, (releaseLockL x).communications = x.communications := fun _ => rfl
  have hclS : ∀ x : Lead, (claimLockL agentId now x).status = x.status := fun _ => rfl
  have hclC : ∀ x : Lead, (claimLockL agentId now x).communications = x.communications :=
    fun _ => rfl
  have hpool1S : (match s.queue.get? s.cursor with
      | some cur => updateLeadIn s.pool cur.id releaseLockL
      | none => s.pool).map Lead.status = s.pool.map Lead.status := by
    cases s.queue.get? s.cursor with
    | none => rfl
    | some cur => exact map_updateLeadIn s.pool cur.id releaseLockL Lead.status hrelS
  have hpool1C : (match s.queue.get? s.cursor with
      | some cur => updateLeadIn s.pool cur.id releaseLockL
      | none => s.pool).map Lead.communications = s.pool.map Lead.communications := by
    cases s.queue.get? s.cursor with
    | none => rfl
    | some cur =>
      exact map_updateLeadIn s.pool cur.id releaseLockL Lead.communications hrelC
  unfold skipLead
  by_cases hlt : s.cursor + 1 < s.queue.length
  · rw [if_pos hlt]
    refine ⟨?_, ?_, rfl, rfl, by rw [if_pos hlt], ?_⟩
    · cases s.queue.get? (s.cursor + 1) with
      | none => exact hpool1S
      | some nxt =>
        rw [map_updateLeadIn _ nxt.id (claimLockL agentId now) Lead.status hclS]
        exact hpool1S
    · cases s.queue.get? (s.cursor + 1) with
      | none => exact hpool1C
      | some nxt =>
        rw [map_updateLeadIn _ nxt.id (claimLockL agentId now) Lead.communications hclC]
        exact hpool1C
    · intro cur _ hnlt
      exact absurd hlt hnlt
  · rw [if_neg hlt]
    refine ⟨hpool1S, hpool1C, rfl, rfl, by rw [if_neg hlt], ?_⟩
    intro cur hq _ l' hl' hid
    rw [hq] at hl'
    rcases mem_updateLeadIn hl' with ⟨x, _, _, rfl⟩ | ⟨_, hne⟩
    · exact ⟨rfl, rfl⟩
    · exact absurd hid hne

/-- C9 witness: skipping at the end of a concrete one-lead queue wraps the
cursor to 0 and leaves the queue snapshot unchanged. -/
theorem claim9_witness :
    (skipLead "agent1" 3 sessionW).queue = sessionW.queue ∧
    (skipLead "agent1" 3 sessionW).cursor = 0 := by
  have h := claim9_skip_behavior "agent1" 3 sessionW
  refine ⟨h.2.2.2.1, ?_⟩
  rw [h.2.2.2.2.1]
  decide

/-- An eligible contacted lead sitting in a session's stale queue snapshot. -/
def leadQ : Lead :=
  { baseLead with id := "Q", status := LeadStatus.contacted, createdAt := 1000 }

/-- An eligible new lead present in the store but not in the snapshot. -/
def leadR : Lead :=
  { baseLead with id := "R", status := LeadStatus.new, createdAt := 2000 }

/-- A session whose queue snapshot is about to be exhausted while the store
holds another eligible lead. -/
def sessionEnd : SessionState :=
  { pool := [leadQ, leadR], queue := [leadQ], cursor := 0, meetings := [] }

/-- C9 counterexample: skipping past the end of the queue resets the cursor
to 0 but does NOT re-run the eligibility filter and priority sort — the
stale one-lead queue is kept even though a refresh would return a different
(two-lead) queue, refuting the claimed same-refresh-rule-as-submission. -/
theorem claim9_counterexample :
    (skipLead "agent1" 0 sessionEnd).queue = [leadQ] ∧
    (skipLead "agent1" 0 sessionEnd).cursor = 0 ∧
    fetchCallableLeads "agent1" 0 (skipLead "agent1" 0 sessionEnd).pool ≠
      (skipLead "agent1" 0 sessionEnd).queue := by
  refine ⟨by decide, by decide, by decide⟩

/-- C3: an answered meeting_setup outcome with a meeting date and an assignee
sets the lead to meeting_scheduled, assigns the lead to the acting agent, and
creates exactly one meeting whose assignee is the selected user, whose
scheduledAt is the meeting date, whose status is "scheduled", and whose
location is the lead's address, or "To be determined" when the lead has no
address. -/
theorem claim3_meeting_setup (agentId orgId u : String) (d now : Int) (l : Lead)
    (cd : CallData)
    (hp : cd.outcome.picked = true) (hr : cd.outcome.result = CallResult.meeting_setup)
    (hd : cd.meetingDate = some d) (hu : cd.assignedTo = some u) (hne : u ≠ "") :
    ((applyOutcome agentId orgId now l cd).1).status = LeadStatus.meeting_scheduled ∧
    ((applyOutcome agentId orgId now l cd).1).assignedTo = some agentId ∧
    ((applyOutcome agentId orgId now l cd).2).length = 1 ∧
    (∀ m ∈ (applyOutcome agentId orgId now l cd).2,
      m.assignedTo = u ∧ m.scheduledAt = d ∧ m.status = "scheduled" ∧
      (∀ a : String, l.address = some a → a ≠ "" → m.location = a) ∧
      (l.address = none → m.location = "To be determined")) := by
  have hw : wantsMeeting cd = true := by
    simp [wantsMeeting, hr, hd, hu, strTruthy, hne]
  refine ⟨?_, ?_, ?_, ?_⟩
  · simp [applyOutcome, submitWrite, newStatusFor, hp, hr]
  · simp [applyOutcome, submitWrite, newAssignedFor, hp, hr]
  · simp [applyOutcome, meetingsFor, hw]
  · intro m hm
    simp only [applyOutcome, meetingsFor, hw, if_true, List.mem_singleton] at hm
    subst hm
    refine ⟨by simp [hu], by simp [hd], rfl, ?_, ?_⟩
    · intro a ha hane
      simp [orElseStr, ha, hane]
    · intro ha
      simp [orElseStr, ha]

/-- C3 witness: a concrete meeting_setup log schedules the lead and produces
one meeting. -/
theorem claim3_witness :
    ((applyOutcome "agent1" "org1" 7 baseLead cdMeeting).1).status =
      LeadStatus.meeting_scheduled ∧
    ((applyOutcome "agent1" "org1" 7 baseLead cdMeeting).1).assignedTo = some "agent1" ∧
    ((applyOutcome "agent1" "org1" 7 baseLead cdMeeting).2).length = 1 := by
  have h := claim3_meeting_setup "agent1" "org1" "agent2" 500000 7 baseLead cdMeeting
    rfl rfl rfl rfl (by decide)
  exact ⟨h.1, h.2.1, h.2.2.1⟩

/-- C2 (amended): an unanswered call logged as switched_off or no_answer sets
the lead's status to contacted unconditionally (even demoting an interested
lead), leaves assignedTo unchanged, creates no meeting, and the appended
communication's nextActionDate is the next calendar day at 09:00 local
time. -/
theorem claim2_unanswered_retry (agentId orgId : String) (now : Int) (f : FormState)
    (l : Lead) (cd : CallData)
    (hp : f.picked = some false)
    (hr : f.result = some CallResult.switched_off ∨ f.result = some CallResult.no_answer)
    (hsave : handleSave now f = some cd) :
    ((applyOutcome agentId orgId now l cd).1).status = LeadStatus.contacted ∧
    ((applyOutcome agentId orgId now l cd).1).assignedTo = l.assignedTo ∧
    (applyOutcome agentId orgId now l cd).2 = [] ∧
    (((lastComm (applyOutcome agentId orgId now l cd).1).bind Communication.outcome).bind
        CallOutcome.nextActionDate) = some (nextDayAt9 now) := by
  rcases hr with hr | hr <;>
  · rw [handleSave.eq_def, hp, hr] at hsave
    simp only [reduceCtorEq, false_and, or_self, if_false, Option.some.injEq, and_false,
      false_or, and_true] at hsave
    simp at hsave
    subst hsave
    refine ⟨?_, ?_, ?_, ?_⟩
    · simp [applyOutcome, submitWrite, newStatusFor]
    · cases hassigned : l.assignedTo <;>
        simp [applyOutcome, submitWrite, newAssignedFor, hassigned]
    · simp [applyOutcome, meetingsFor, wantsMeeting]
    · simp [applyOutcome, submitWrite, lastComm, List.getLast?_concat, mkComm,
        getNextActionDate]

/-- C2 witness: a concrete no_answer log on the base lead keeps assignedTo,
creates no meeting, and schedules retry for tomorrow 9 AM. -/
theorem claim2_witness :
    ((applyOutcome "agent1" "org1" 0 baseLead cdNoAnswer).1).status = LeadStatus.contacted ∧
    ((applyOutcome "agent1" "org1" 0 baseLead cdNoAnswer).1).assignedTo =
      baseLead.assignedTo ∧
    (applyOutcome "agent1" "org1" 0 baseLead cdNoAnswer).2 = [] ∧
    (((lastComm (applyOutcome "agent1" "org1" 0 baseLead cdNoAnswer).1).bind
        Communication.outcome).bind CallOutcome.nextActionDate) = some (nextDayAt9 0) :=
  claim2_unanswered_retry "agent1" "org1" 0 formNoAnswer baseLead cdNoAnswer rfl
    (Or.inr rfl) (by decide)

/-- C2 counterexample: an interested lead (further along than contacted)
logged picked = false, no_answer is demoted to contacted, refuting the
claimed "unless the lead is further along" guard. -/
theorem claim2_counterexample :
    leadInterested.status = LeadStatus.interested ∧
    handleSave 0 formNoAnswer = some cdNoAnswer ∧
    ((applyOutcome "agent1" "org1" 0 leadInterested cdNoAnswer).1).status =
      LeadStatus.contacted := by
  refine ⟨rfl, by decide, by decide⟩

/-- C10: when the outcome requires a meeting, the meeting is persisted before
any write to the lead: if meeting creation fails the whole operation aborts
with the lead record (communications, status, assignedTo, lock marker)
completely unchanged and no meeting stored; if the lead update fails after
meeting creation, the meeting exists and the lead is unchanged; and a run
whose final lead state differs from the original always has the meeting
persisted — an updated lead without its meeting is unreachable. -/
theorem claim10_meeting_before_lead_write (agentId orgId : String) (now : Int) (l : Lead)
    (cd : CallData) (mOk uOk : Bool) (hw : wantsMeeting cd = true) :
    (mOk = false → handleCallLogRun agentId orgId now l cd mOk uOk =
      PersistResult.failed l []) ∧
    (mOk = true → uOk = false → handleCallLogRun agentId orgId now l cd mOk uOk =
      PersistResult.failed l (meetingsFor agentId orgId now l cd)) ∧
    ((handleCallLogRun agentId orgId now l cd mOk uOk).lead ≠ l →
      (handleCallLogRun agentId orgId now l cd mOk uOk).meetings =
        meetingsFor agentId orgId now l cd ∧
      (handleCallLogRun agentId orgId now l cd mOk uOk).meetings ≠ []) := by
  have hms : meetingsFor agentId orgId now l cd ≠ [] := by
    simp [meetingsFor, hw]
  refine ⟨?_, ?_, ?_⟩
  · intro hm; subst hm
    simp [handleCallLogRun, hw]
  · intro hm hu; subst hm; subst hu
    simp [handleCallLogRun, hw]
  · intro hne
    cases mOk with
    | false =>
      exfalso
      apply hne
      simp [handleCallLogRun, hw, PersistResult.lead]
    | true =>
      cases uOk <;>
        simpa [handleCallLogRun, hw, PersistResult.meetings] using hms

/-- C10 witness: concrete runs with a failing meeting write leave the lead
untouched with nothing stored, and a failing lead write after a successful
meeting write leaves the meeting stored and the lead untouched. -/
theorem claim10_witness :
    handleCallLogRun "agent1" "org1" 9 baseLead cdMeeting false true =
      PersistResult.failed baseLead [] ∧
    handleCallLogRun "agent1" "org1" 9 baseLead cdMeeting true false =
      PersistResult.failed baseLead (meetingsFor "agent1" "org1" 9 baseLead cdMeeting) := by
  have h1 := claim10_meeting_before_lead_write "agent1" "org1" 9 baseLead cdMeeting
    false true (by decide)
  have h2 := claim10_meeting_before_lead_write "agent1" "org1" 9 baseLead cdMeeting
    true false (by decide)
  exact ⟨h1.1 rfl, h2.2.1 rfl rfl⟩
